import Mathlib

deriving instance DecidableEq for Except

/-!
Shallow embedding of `sdtconvert.c`, an ELF object rewriter for SDT probes,
together with theorems settling the specification claims about it.

The ELF access layer (libelf) is treated as a resolved library: symbols carry
their resolved names, sections are given as explicit lists.  Machine integers
are `Nat` with explicit 64-bit masking where the C code relies on word width.
-/

namespace Sdtconvert

/-- ELF file type `ET_REL` (relocatable object). -/
def ET_REL : Nat := 1

/-- ELF machine `EM_X86_64`. -/
def EM_X86_64 : Nat := 62

/-- The x86-64 null relocation type. -/
def R_X86_64_NONE : Nat := 0

/-- Opcode byte of `CALL rel32` (`AMD64_CALL` in the source). -/
def AMD64_CALL : Nat := 0xe8

/-- Opcode byte of `JMP rel32` (`AMD64_JMP32` in the source). -/
def AMD64_JMP32 : Nat := 0xe9

/-- The single-byte NOP (`AMD64_NOP`). -/
def AMD64_NOP : Nat := 0x90

/-- The near-return opcode (`AMD64_RETQ`). -/
def AMD64_RETQ : Nat := 0xc3

/-- Symbol type `STT_NOTYPE`. -/
def STT_NOTYPE : Nat := 0

/-- Symbol binding `STB_GLOBAL`. -/
def STB_GLOBAL : Nat := 1

/-- The probe stub name pattern `__dtrace_probe_` (`probe_prefix` in the source). -/
def probePfx : List Char := "__dtrace_probe_".toList

/-- `prefixlen = sizeof(probe_prefix) - 1` in the source. -/
def pfxlen : Nat := probePfx.length

/-- Length of the probe-descriptor pattern `"sdt_"`, i.e. `strlen("sdt_")`. -/
def sdtPfxLen : Nat := 4

/-- `GELF_R_SYM` on a 64-bit relocation info word: the upper 32 bits. -/
def GELF_R_SYM (i : Nat) : Nat := i >>> 32

/-- `GELF_R_TYPE` on a 64-bit relocation info word: the lower 32 bits. -/
def GELF_R_TYPE (i : Nat) : Nat := i &&& 0xffffffff

/-- `GELF_ST_TYPE` of a symbol's `st_info` byte: the low nibble. -/
def GELF_ST_TYPE (i : Nat) : Nat := i &&& 0xf

/-- `GELF_ST_BIND` of a symbol's `st_info` byte: the high nibble. -/
def GELF_ST_BIND (i : Nat) : Nat := i >>> 4

/-- The relocation-info rewrite performed at lines 201-202 of the source:
`*info &= ~GELF_R_TYPE(*info); *info |= R_X86_64_NONE;` where `*info` is a
64-bit unsigned word, so `~` is complement within 64 bits. -/
def rewriteInfo (i : Nat) : Nat :=
  (i &&& ((2 ^ 64 - 1) ^^^ GELF_R_TYPE i)) ||| R_X86_64_NONE

/-- A symbol-table entry, with its name already resolved through the string
table (`elf_strptr` is part of the out-of-scope access layer). -/
structure Sym where
  name : List Char
  st_info : Nat
  deriving DecidableEq

/-- A relocation entry; `r_info` is the 64-bit info word. -/
structure Rel where
  r_offset : Nat
  r_info : Nat
  deriving DecidableEq

/-- An entry of the in-memory probe-instance list (`struct probe_instance`). -/
structure ProbeInstance where
  symname : List Char
  offset : Nat
  deriving DecidableEq

/-- A record of `set_sdt_instance_set` (`struct sdt_instance`): the `probe`
pointer (zeroed at emit time) and the call-site offset. -/
structure SdtInstance where
  probe : Nat
  offset : Nat
  deriving DecidableEq

/-- `symlookup`: bounds-checked indexed lookup in the symbol table; the source
exits fatally on an out-of-range index, modelled by `none`. -/
def symlookup (symtab : List Sym) (ndx : Nat) : Option Sym :=
  symtab.get? ndx

/-- A bounds-checked byte read from a text buffer at a possibly negative
index.  The C code indexes the raw buffer directly; an index outside the
buffer is undefined behavior, modelled by `none`. -/
def readByte (t : List Nat) (i : Int) : Option Nat :=
  if 0 ≤ i then t[i.toNat]? else none

/-- `memset(&target[offset - 1], AMD64_NOP, 5)`: writes NOP to the five byte
positions `offset - 1 .. offset + 3`. -/
def patchNops (t : List Nat) (off : Nat) : List Nat :=
  (((((t.set (off - 1) AMD64_NOP).set off AMD64_NOP).set
      (off + 1) AMD64_NOP).set (off + 2) AMD64_NOP).set (off + 3) AMD64_NOP)

/-- The patched text produced for a call site: five NOPs, and additionally a
RET over the opcode byte when the original instruction was a tail jump. -/
def rewrittenText (t : List Nat) (off : Nat) (opc : Nat) : List Nat :=
  if opc = AMD64_JMP32 then (patchNops t off).set (off - 1) AMD64_RETQ
  else patchNops t off

/-- Outcome of `process_rel`: skip (`return 1`), rewrite (`return 0`, with the
updated text, info word and recorded instance), a fatal `errx`, or an
out-of-bounds buffer access (undefined behavior in the C source). -/
inductive RelAction where
  | skip : RelAction
  | rewritten : List Nat → Nat → ProbeInstance → RelAction
  | fatal : String → RelAction
  | undef : RelAction
  deriving DecidableEq

/-- `process_rel` (source lines 149-216): filter by the stub-name pattern,
sanity-check the symbol and the instruction bytes, patch the call site,
neutralize the relocation, and record the instance. -/
def processRel (machine : Nat) (symtab : List Sym) (target : List Nat)
    (offset : Nat) (info : Nat) : RelAction :=
  match symlookup symtab (GELF_R_SYM info) with
  | none => RelAction.fatal "invalid symbol index"
  | some sym =>
    if sym.name.take pfxlen ≠ probePfx then RelAction.skip
    else if GELF_ST_TYPE sym.st_info ≠ STT_NOTYPE then
      RelAction.fatal "unexpected symbol type"
    else if GELF_ST_BIND sym.st_info ≠ STB_GLOBAL then
      RelAction.fatal "unexpected binding"
    else if machine = EM_X86_64 then
      match readByte target ((offset : Int) - 1) with
      | none => RelAction.undef
      | some opc =>
        if opc ≠ AMD64_CALL ∧ opc ≠ AMD64_JMP32 then
          RelAction.fatal "unexpected opcode"
        else
          match readByte target (offset : Int) with
          | none => RelAction.undef
          | some b0 =>
            if b0 ≠ 0 then RelAction.fatal "unexpected addr"
            else
              match readByte target ((offset : Int) + 1) with
              | none => RelAction.undef
              | some b1 =>
                if b1 ≠ 0 then RelAction.fatal "unexpected addr"
                else
                  match readByte target ((offset : Int) + 2) with
                  | none => RelAction.undef
                  | some b2 =>
                    if b2 ≠ 0 then RelAction.fatal "unexpected addr"
                    else
                      match readByte target ((offset : Int) + 3) with
                      | none => RelAction.undef
                      | some b3 =>
                        if b3 ≠ 0 then RelAction.fatal "unexpected addr"
                        else
                          RelAction.rewritten
                            (rewrittenText target offset opc)
                            (rewriteInfo info)
                            { symname := sym.name, offset := offset }
    else RelAction.fatal "unhandled machine type"

/-- State carried across `process_reloc_scn`'s loop: the text buffer, the
relocation entries written back so far, and the probe-instance list (built by
`SLIST_INSERT_HEAD`, i.e. by prepending). -/
structure ScanState where
  text : List Nat
  rels : List Rel
  plist : List ProbeInstance
  deriving DecidableEq

/-- One iteration of the relocation loop in `process_reloc_scn`: run
`process_rel`; on a rewrite, write back the relocation with the updated info
word and prepend the instance to the list. -/
def scanStep (machine : Nat) (symtab : List Sym) (st : ScanState) (r : Rel) :
    Except String ScanState :=
  match processRel machine symtab st.text r.r_offset r.r_info with
  | RelAction.skip => Except.ok { st with rels := st.rels ++ [r] }
  | RelAction.rewritten t i inst =>
      Except.ok { text := t,
                  rels := st.rels ++ [{ r_offset := r.r_offset, r_info := i }],
                  plist := inst :: st.plist }
  | RelAction.fatal m => Except.error m
  | RelAction.undef => Except.error "out-of-bounds access"

/-- The relocation loop of `process_reloc_scn` over the entries in index
order. -/
def scanRels (machine : Nat) (symtab : List Sym) :
    List Rel → ScanState → Except String ScanState
  | [], st => Except.ok st
  | r :: rs, st =>
    match scanStep machine symtab st r with
    | Except.error e => Except.error e
    | Except.ok st2 => scanRels machine symtab rs st2

/-- The search loop of `record_instance` (source lines 410-440) over the
relocations of the probe linker set: look up each referenced symbol, skip
names shorter than `prefixlen`, and compare the name after `"sdt_"` with the
instance's symbol name after `"__dtrace_probe_"`; the first equal match wins.
Returns whether `found` was set; a bad symbol index is fatal. -/
def resolveInstance (probeSyms : List Sym) (instname : List Char) :
    List Rel → Except String Bool
  | [] => Except.ok false
  | r :: rs =>
    match symlookup probeSyms (GELF_R_SYM r.r_info) with
    | none => Except.error "invalid symbol index"
    | some sym =>
      if sym.name.length < pfxlen then resolveInstance probeSyms instname rs
      else if sym.name.drop sdtPfxLen = instname.drop pfxlen then
        Except.ok true
      else resolveInstance probeSyms instname rs

/-- An input relocatable object, with the sections the tool touches made
explicit: the `.text` bytes, the relocations targeting `.text`, the symbol
table, whether a `set_sdt_probes_set` section exists, and the relocations of
the section relocating it together with their symbol table. -/
structure Obj where
  e_type : Nat
  e_machine : Nat
  text : List Nat
  textRels : List Rel
  symtab : List Sym
  hasProbeSet : Bool
  probeRels : List Rel
  probeSyms : List Sym
  deriving DecidableEq

/-- `record_instance` (source lines 349-454) for one probe instance: append
one `sdt_instance` record (`probe` zeroed, `offset` copied) to
`set_sdt_instance_set`, then search the probe-set relocations for a matching
descriptor, exiting fatally when the probe set or a match is missing.  The
companion relocation section parameter is unused by the source: no relocation
is appended to it. -/
def recordInstance (o : Obj) (inst : ProbeInstance) :
    Except String SdtInstance :=
  if ¬ o.hasProbeSet then
    Except.error "could not find SDT probe linker set"
  else
    match resolveInstance o.probeSyms inst.symname o.probeRels with
    | Except.error e => Except.error e
    | Except.ok found =>
      if found then Except.ok { probe := 0, offset := inst.offset }
      else Except.error "failed to find SDT probe relocation"

/-- The `SLIST_FOREACH_SAFE` loop of `process_obj`: run `record_instance` for
each listed instance, from the head of the list. -/
def emitAll (o : Obj) : List ProbeInstance → Except String (List SdtInstance)
  | [] => Except.ok []
  | inst :: insts =>
    match recordInstance o inst with
    | Except.error e => Except.error e
    | Except.ok rec1 =>
      match emitAll o insts with
      | Except.error e => Except.error e
      | Except.ok recs => Except.ok (rec1 :: recs)

/-- Observable result of processing one object: whether the file was skipped
with a warning (non-`ET_REL` input), the final text bytes and text
relocations, the records of `set_sdt_instance_set`, the relocations of
`.relaset_sdt_instance_set`, and the names of the sections added. -/
structure ObjResult where
  skipped : Bool
  text : List Nat
  textRels : List Rel
  instRecords : List SdtInstance
  instRelas : List Rel
  newSections : List (List Char)
  deriving DecidableEq

/-- The result of the early `return` of `process_obj` for a non-`ET_REL`
input: a warning is printed and the file is left untouched. -/
def skipResult (o : Obj) : ObjResult :=
  { skipped := true, text := o.text, textRels := o.textRels,
    instRecords := [], instRelas := [], newSections := [] }

/-- `process_obj` (source lines 290-347): skip non-relocatable inputs with a
warning; otherwise scan the text relocations, and when instances were found
add `set_sdt_instance_set` and `.relaset_sdt_instance_set` and emit one record
per instance.  The source never appends a relocation to
`.relaset_sdt_instance_set`, so `instRelas` is empty. -/
def processObj (o : Obj) : Except String ObjResult :=
  if o.e_type ≠ ET_REL then
    Except.ok (skipResult o)
  else
    match scanRels o.e_machine o.symtab o.textRels
        { text := o.text, rels := [], plist := [] } with
    | Except.error e => Except.error e
    | Except.ok st =>
      if st.plist.isEmpty then
        Except.ok { skipped := false, text := st.text, textRels := st.rels,
                    instRecords := [], instRelas := [], newSections := [] }
      else
        match emitAll o st.plist with
        | Except.error e => Except.error e
        | Except.ok recs =>
          Except.ok { skipped := false, text := st.text, textRels := st.rels,
                      instRecords := recs, instRelas := [],
                      newSections := ["set_sdt_instance_set".toList,
                                      ".relaset_sdt_instance_set".toList] }

/-- The loop of `main` over the input files; any fatal error aborts the
process. -/
def runAll : List Obj → Except String (List ObjResult)
  | [] => Except.ok []
  | o :: os =>
    match processObj o with
    | Except.error e => Except.error e
    | Except.ok r =>
      match runAll os with
      | Except.error e => Except.error e
      | Except.ok rs => Except.ok (r :: rs)

/-- Process exit status: `main` returns 0 unless some `errx` aborted it. -/
def exitCode (objs : List Obj) : Nat :=
  match runAll objs with
  | Except.ok _ => 0
  | Except.error _ => 1

/-- A section header, in the generic 64-bit form used through `gelf`. -/
structure Shdr where
  sh_name : Nat
  sh_type : Nat
  sh_flags : Nat
  sh_size : Nat
  sh_addralign : Nat
  deriving DecidableEq

/-- `add_section` (source lines 84-133), abstracted over the string-table
state: append `name` plus its NUL to the section header string table (whose
size field grows by `strlen(name) + 1`), then create the new header with
`sh_name = strshdr.sh_size - len`, the given type and flags, and alignment 8.
Returns the new header and the updated string-table size. -/
def addSection (strtabSize : Nat) (name : List Char) (ty fl : Nat) :
    Shdr × Nat :=
  let len := name.length + 1
  let strSize2 := strtabSize + len
  ({ sh_name := strSize2 - len, sh_type := ty, sh_flags := fl,
     sh_size := 0, sh_addralign := 8 }, strSize2)

/-- Order-explicit variant of `scanStep`, following the specification's words
that instances are recorded in the order their relocations are processed: the
instance is appended at the tail instead of prepended.  Used only to compare
the source's list order against the specification's. -/
def scanStepSpecOrder (machine : Nat) (symtab : List Sym) (st : ScanState)
    (r : Rel) : Except String ScanState :=
  match processRel machine symtab st.text r.r_offset r.r_info with
  | RelAction.skip => Except.ok { st with rels := st.rels ++ [r] }
  | RelAction.rewritten t i inst =>
      Except.ok { text := t,
                  rels := st.rels ++ [{ r_offset := r.r_offset, r_info := i }],
                  plist := st.plist ++ [inst] }
  | RelAction.fatal m => Except.error m
  | RelAction.undef => Except.error "out-of-bounds access"

/-- The relocation loop using `scanStepSpecOrder`: its final `plist` is the
instances in processing order. -/
def scanRelsSpecOrder (machine : Nat) (symtab : List Sym) :
    List Rel → ScanState → Except String ScanState
  | [], st => Except.ok st
  | r :: rs, st =>
    match scanStepSpecOrder machine symtab st r with
    | Except.error e => Except.error e
    | Except.ok st2 => scanRelsSpecOrder machine symtab rs st2

/-- Reversal of the instance list of a scan state, used to relate the
source's head-insertion order to the specification's processing order. -/
def revState (st : ScanState) : ScanState :=
  { st with plist := st.plist.reverse }

/-- A symbol table holding one probe stub symbol, global and untyped, for the
probe named `averylongprobe` (long enough for the resolver's length guard). -/
def symtabLong : List Sym :=
  [{ name := [], st_info := 0 },
   { name := "__dtrace_probe_averylongprobe".toList, st_info := 0x10 }]

/-- A concrete relocatable object with a single `CALL __dtrace_probe_averylongprobe`
whose displacement relocation sits at text offset 3, and a probe linker set
whose relocation section references `sdt_averylongprobe`. -/
def objLong : Obj :=
  { e_type := ET_REL, e_machine := EM_X86_64,
    text := [0, 0, 0xe8, 0, 0, 0, 0, 0],
    textRels := [{ r_offset := 3, r_info := (1 <<< 32) + 2 }],
    symtab := symtabLong,
    hasProbeSet := true,
    probeRels := [{ r_offset := 0, r_info := (1 <<< 32) + 1 }],
    probeSyms := [{ name := [], st_info := 0 },
                  { name := "sdt_averylongprobe".toList, st_info := 0x11 }] }

/-- The same object after the tool rewrote it: the call site is NOPed out and
the relocation's type field is cleared, while the stub symbol reference is
intact. -/
def objLongRewritten : Obj :=
  { objLong with
    text := [0, 0, 0x90, 0x90, 0x90, 0x90, 0x90, 0],
    textRels := [{ r_offset := 3, r_info := 1 <<< 32 }] }

/-- A concrete object with a single `CALL __dtrace_probe_foo` and a probe
linker set referencing `sdt_foo`: the scenario of the spec's
"single direct call" test case, with the short probe name `foo`. -/
def objFoo : Obj :=
  { e_type := ET_REL, e_machine := EM_X86_64,
    text := [0, 0, 0xe8, 0, 0, 0, 0, 0],
    textRels := [{ r_offset := 3, r_info := (1 <<< 32) + 2 }],
    symtab := [{ name := [], st_info := 0 },
               { name := "__dtrace_probe_foo".toList, st_info := 0x10 }],
    hasProbeSet := true,
    probeRels := [{ r_offset := 0, r_info := (1 <<< 32) + 1 }],
    probeSyms := [{ name := [], st_info := 0 },
                  { name := "sdt_foo".toList, st_info := 0x11 }] }

/-- A concrete object with two call sites to the same probe, the first
relocation at text offset 3 and the second at text offset 9. -/
def objTwo : Obj :=
  { e_type := ET_REL, e_machine := EM_X86_64,
    text := [0, 0, 0xe8, 0, 0, 0, 0, 0, 0xe8, 0, 0, 0, 0],
    textRels := [{ r_offset := 3, r_info := (1 <<< 32) + 2 },
                 { r_offset := 9, r_info := (1 <<< 32) + 2 }],
    symtab := symtabLong,
    hasProbeSet := true,
    probeRels := [{ r_offset := 0, r_info := (1 <<< 32) + 1 }],
    probeSyms := [{ name := [], st_info := 0 },
                  { name := "sdt_averylongprobe".toList, st_info := 0x11 }] }

/-- A non-relocatable (executable) ELF input. -/
def objExe : Obj :=
  { objLong with e_type := 2 }

/-- The result of processing `objLong`. -/
def resLong : ObjResult :=
  { skipped := false,
    text := [0, 0, 0x90, 0x90, 0x90, 0x90, 0x90, 0],
    textRels := [{ r_offset := 3, r_info := 1 <<< 32 }],
    instRecords := [{ probe := 0, offset := 3 }],
    instRelas := [],
    newSections := ["set_sdt_instance_set".toList,
                    ".relaset_sdt_instance_set".toList] }

/-- The result of processing `objTwo`. -/
def resTwo : ObjResult :=
  { skipped := false,
    text := [0, 0, 0x90, 0x90, 0x90, 0x90, 0x90, 0,
             0x90, 0x90, 0x90, 0x90, 0x90],
    textRels := [{ r_offset := 3, r_info := 1 <<< 32 },
                 { r_offset := 9, r_info := 1 <<< 32 }],
    instRecords := [{ probe := 0, offset := 9 }, { probe := 0, offset := 3 }],
    instRelas := [],
    newSections := ["set_sdt_instance_set".toList,
                    ".relaset_sdt_instance_set".toList] }

/-- The scan state after processing `objLong`'s single text relocation. -/
def st2Long : ScanState :=
  { text := resLong.text,
    rels := resLong.textRels,
    plist := [{ symname := "__dtrace_probe_averylongprobe".toList,
                offset := 3 }] }

/-- The scan state produced for `objTwo` by the specification-order scanner:
the probe instances listed in the order their relocations were processed. -/
def stATwo : ScanState :=
  { text := resTwo.text,
    rels := resTwo.textRels,
    plist := [{ symname := "__dtrace_probe_averylongprobe".toList, offset := 3 },
              { symname := "__dtrace_probe_averylongprobe".toList, offset := 9 }] }

lemma mask32_eq : (0xffffffff : Nat) = 2 ^ 32 - 1 := by norm_num

/-- The info-word rewrite zeroes the whole 32-bit type field, for every
original info word. -/
lemma rtype_rewriteInfo (i : Nat) : GELF_R_TYPE (rewriteInfo i) = R_X86_64_NONE := by
  unfold rewriteInfo GELF_R_TYPE R_X86_64_NONE
  rw [mask32_eq]
  apply Nat.eq_of_testBit_eq
  intro j
  simp only [Nat.testBit_and, Nat.testBit_or, Nat.testBit_xor,
    Nat.testBit_two_pow_sub_one, Nat.zero_testBit]
  by_cases h32 : j < 32
  · have h64 : j < 64 := by omega
    simp only [h32, h64, decide_True]
    cases hi : i.testBit j <;> simp
  · simp [h32]

/-- The info-word rewrite leaves the 32-bit symbol-index field intact for
every 64-bit info word. -/
lemma rsym_rewriteInfo (i : Nat) (h : i < 2 ^ 64) :
    GELF_R_SYM (rewriteInfo i) = GELF_R_SYM i := by
  unfold rewriteInfo GELF_R_TYPE GELF_R_SYM R_X86_64_NONE
  rw [mask32_eq]
  apply Nat.eq_of_testBit_eq
  intro j
  simp only [Nat.testBit_shiftRight, Nat.testBit_and, Nat.testBit_or,
    Nat.testBit_xor, Nat.testBit_two_pow_sub_one, Nat.zero_testBit]
  by_cases h64 : 32 + j < 64
  · have h32 : ¬ (32 + j < 32) := by omega
    simp only [h64, h32, decide_True, decide_False]
    cases hi : i.testBit (32 + j) <;> simp
  · have hlt : i < 2 ^ (32 + j) := by
      calc i < 2 ^ 64 := h
      _ ≤ 2 ^ (32 + j) := Nat.pow_le_pow_right (by omega) (by omega)
    simp [h64, Nat.testBit_lt_two_pow hlt]

/-- The rewritten info word still fits in 64 bits. -/
lemma rewriteInfo_lt (i : Nat) : rewriteInfo i < 2 ^ 64 := by
  unfold rewriteInfo R_X86_64_NONE
  rw [Nat.or_zero]
  exact Nat.and_lt_two_pow i
    (Nat.xor_lt_two_pow (by norm_num) (Nat.and_lt_two_pow i (by norm_num)))

/-- A successful byte read implies the index is in bounds. -/
lemma readByte_some {t : List Nat} {i : Int} {b : Nat}
    (h : readByte t i = some b) : 0 ≤ i ∧ i.toNat < t.length := by
  unfold readByte at h
  split at h
  · next hpos =>
    refine ⟨hpos, ?_⟩
    by_cases hl : i.toNat < t.length
    · exact hl
    · rw [List.getElem?_eq_none (by omega)] at h
      cases h
  · cases h

lemma length_patchNops (t : List Nat) (off : Nat) :
    (patchNops t off).length = t.length := by
  simp [patchNops]

lemma length_rewrittenText (t : List Nat) (off opc : Nat) :
    (rewrittenText t off opc).length = t.length := by
  unfold rewrittenText
  split <;> simp [patchNops]

/-- The five bytes written by the x86-64 patch: a RET (after a tail jump) or
NOP at `off - 1`, NOPs at `off .. off + 3`. -/
lemma rewrittenText_bytes (t : List Nat) (off opc : Nat) (hoff : 1 ≤ off)
    (hlen : off + 3 < t.length) :
    readByte (rewrittenText t off opc) ((off : Int) - 1) =
      some (if opc = AMD64_JMP32 then AMD64_RETQ else AMD64_NOP) ∧
    readByte (rewrittenText t off opc) (off : Int) = some AMD64_NOP ∧
    readByte (rewrittenText t off opc) ((off : Int) + 1) = some AMD64_NOP ∧
    readByte (rewrittenText t off opc) ((off : Int) + 2) = some AMD64_NOP ∧
    readByte (rewrittenText t off opc) ((off : Int) + 3) = some AMD64_NOP := by
  have hlen1 : ((((t.set (off - 1) AMD64_NOP).set off AMD64_NOP).set
      (off + 1) AMD64_NOP).set (off + 2) AMD64_NOP).length = t.length := by simp
  have hlen0 : (t.set (off - 1) AMD64_NOP).length = t.length := by simp
  have hlen2 : (((t.set (off - 1) AMD64_NOP).set off AMD64_NOP).set
      (off + 1) AMD64_NOP).length = t.length := by simp
  have hlen3 : ((t.set (off - 1) AMD64_NOP).set off AMD64_NOP).length =
      t.length := by simp
  have hlen5 : (((((t.set (off - 1) AMD64_NOP).set off AMD64_NOP).set
      (off + 1) AMD64_NOP).set (off + 2) AMD64_NOP).set
      (off + 3) AMD64_NOP).length = t.length := by simp
  have h0 : (0 : Int) ≤ (off : Int) - 1 := by omega
  have ht0 : ((off : Int) - 1).toNat = off - 1 := by omega
  have ht1 : ((off : Int)).toNat = off := by omega
  have ht2 : ((off : Int) + 1).toNat = off + 1 := by omega
  have ht3 : ((off : Int) + 2).toNat = off + 2 := by omega
  have ht4 : ((off : Int) + 3).toNat = off + 3 := by omega
  unfold readByte rewrittenText patchNops
  refine ⟨?_, ?_, ?_, ?_, ?_⟩
  · rw [if_pos h0, ht0]
    split
    · rw [List.getElem?_set_self (by omega)]
    · rw [List.getElem?_set_ne (by omega), List.getElem?_set_ne (by omega),
        List.getElem?_set_ne (by omega), List.getElem?_set_ne (by omega),
        List.getElem?_set_self (by omega)]
  · rw [if_pos (by omega), ht1]
    have hbody : (((((t.set (off - 1) AMD64_NOP).set off AMD64_NOP).set
        (off + 1) AMD64_NOP).set (off + 2) AMD64_NOP).set
        (off + 3) AMD64_NOP)[off]? = some AMD64_NOP := by
      rw [List.getElem?_set_ne (by omega), List.getElem?_set_ne (by omega),
        List.getElem?_set_ne (by omega), List.getElem?_set_self (by omega)]
    split
    · rw [List.getElem?_set_ne (by omega), hbody]
    · exact hbody
  · rw [if_pos (by omega), ht2]
    have hbody : (((((t.set (off - 1) AMD64_NOP).set off AMD64_NOP).set
        (off + 1) AMD64_NOP).set (off + 2) AMD64_NOP).set
        (off + 3) AMD64_NOP)[off + 1]? = some AMD64_NOP := by
      rw [List.getElem?_set_ne (by omega), List.getElem?_set_ne (by omega),
        List.getElem?_set_self (by omega)]
    split
    · rw [List.getElem?_set_ne (by omega), hbody]
    · exact hbody
  · rw [if_pos (by omega), ht3]
    have hbody : (((((t.set (off - 1) AMD64_NOP).set off AMD64_NOP).set
        (off + 1) AMD64_NOP).set (off + 2) AMD64_NOP).set
        (off + 3) AMD64_NOP)[off + 2]? = some AMD64_NOP := by
      rw [List.getElem?_set_ne (by omega), List.getElem?_set_self (by omega)]
    split
    · rw [List.getElem?_set_ne (by omega), hbody]
    · exact hbody
  · rw [if_pos (by omega), ht4]
    have hbody : (((((t.set (off - 1) AMD64_NOP).set off AMD64_NOP).set
        (off + 1) AMD64_NOP).set (off + 2) AMD64_NOP).set
        (off + 3) AMD64_NOP)[off + 3]? = some AMD64_NOP := by
      rw [List.getElem?_set_self (by omega)]
    split
    · rw [List.getElem?_set_ne (by omega), hbody]
    · exact hbody

/-- Forward computation of `process_rel` on a probe-stub relocation whose
guards all pass: the call site is patched and the relocation neutralized. -/
lemma processRel_rewrites (symtab : List Sym) (t : List Nat) (O i : Nat)
    (sym : Sym) (opc : Nat)
    (hsym : symlookup symtab (GELF_R_SYM i) = some sym)
    (hname : sym.name.take pfxlen = probePfx)
    (hty : GELF_ST_TYPE sym.st_info = STT_NOTYPE)
    (hbd : GELF_ST_BIND sym.st_info = STB_GLOBAL)
    (hopc : readByte t ((O : Int) - 1) = some opc)
    (hc : opc = AMD64_CALL ∨ opc = AMD64_JMP32)
    (hb0 : readByte t (O : Int) = some 0)
    (hb1 : readByte t ((O : Int) + 1) = some 0)
    (hb2 : readByte t ((O : Int) + 2) = some 0)
    (hb3 : readByte t ((O : Int) + 3) = some 0) :
    processRel EM_X86_64 symtab t O i =
      RelAction.rewritten (rewrittenText t O opc) (rewriteInfo i)
        { symname := sym.name, offset := O } := by
  rcases hc with hc | hc <;> subst hc <;>
    simp [processRel, hsym, hname, hty, hbd, hopc, hb0, hb1, hb2, hb3,
      AMD64_CALL, AMD64_JMP32]

/-- Running `process_rel` again on a call site it has already rewritten is
fatal: the stub symbol reference survives the rewrite, so the filter matches
again, and the patched opcode byte (NOP or RET) fails the CALL/JMP check. -/
lemma processRel_again_fatal (symtab : List Sym) (t : List Nat) (O i : Nat)
    (sym : Sym) (opc : Nat)
    (h64 : i < 2 ^ 64)
    (hsym : symlookup symtab (GELF_R_SYM i) = some sym)
    (hname : sym.name.take pfxlen = probePfx)
    (hty : GELF_ST_TYPE sym.st_info = STT_NOTYPE)
    (hbd : GELF_ST_BIND sym.st_info = STB_GLOBAL)
    (hopc : readByte t ((O : Int) - 1) = some opc)
    (hb3 : readByte t ((O : Int) + 3) = some 0) :
    processRel EM_X86_64 symtab (rewrittenText t O opc) O (rewriteInfo i) =
      RelAction.fatal "unexpected opcode" := by
  have hb := readByte_some hopc
  have hb3b := readByte_some hb3
  have hoff : 1 ≤ O := by omega
  have hlen : O + 3 < t.length := by
    have := hb3b.2
    omega
  obtain ⟨hr0, hr1, hr2, hr3, hr4⟩ := rewrittenText_bytes t O opc hoff hlen
  have hsym2 : symlookup symtab (GELF_R_SYM (rewriteInfo i)) = some sym := by
    rw [rsym_rewriteInfo i h64]
    exact hsym
  by_cases hj : opc = AMD64_JMP32
  · subst hj
    simp [AMD64_JMP32, AMD64_RETQ] at hr0
    simp [processRel, hsym2, hname, hty, hbd, hr0, AMD64_CALL, AMD64_JMP32]
  · simp [hj, AMD64_NOP] at hr0
    simp [processRel, hsym2, hname, hty, hbd, hr0, AMD64_CALL, AMD64_JMP32]

/-- Inversion of `process_rel`: every rewrite outcome carries the neutralized
info word, the patched text, and an instance recording the relocation
offset. -/
lemma processRel_rewritten_inv {machine : Nat} {symtab : List Sym}
    {t : List Nat} {O i : Nat} {t2 : List Nat} {i2 : Nat}
    {inst : ProbeInstance}
    (h : processRel machine symtab t O i = RelAction.rewritten t2 i2 inst) :
    i2 = rewriteInfo i ∧ inst.offset = O ∧
      ∃ opc, readByte t ((O : Int) - 1) = some opc ∧
        t2 = rewrittenText t O opc := by
  unfold processRel at h
  split at h
  · exact absurd h (by simp)
  · split at h
    · exact absurd h (by simp)
    · split at h
      · exact absurd h (by simp)
      · split at h
        · exact absurd h (by simp)
        · split at h
          · split at h
            · exact absurd h (by simp)
            · rename_i opc hr
              split at h
              · exact absurd h (by simp)
              · split at h
                · exact absurd h (by simp)
                · split at h
                  · exact absurd h (by simp)
                  · split at h
                    · exact absurd h (by simp)
                    · split at h
                      · exact absurd h (by simp)
                      · split at h
                        · exact absurd h (by simp)
                        · split at h
                          · exact absurd h (by simp)
                          · split at h
                            · exact absurd h (by simp)
                            · split at h
                              · exact absurd h (by simp)
                              · simp only [RelAction.rewritten.injEq] at h
                                obtain ⟨ht, hi, hin⟩ := h
                                exact ⟨hi.symm, by rw [← hin], opc, hr,
                                  ht.symm⟩
          · exact absurd h (by simp)

/-- One scanner step in spec order simulates one source step: appending at
the tail of the reversed list matches prepending at the head. -/
lemma scanStep_rev (m : Nat) (symtab : List Sym) (st : ScanState) (r : Rel)
    (st2 : ScanState) (h : scanStep m symtab st r = Except.ok st2) :
    scanStepSpecOrder m symtab (revState st) r = Except.ok (revState st2) := by
  unfold scanStep at h
  unfold scanStepSpecOrder
  cases hp : processRel m symtab st.text r.r_offset r.r_info <;>
    rw [hp] at h <;> simp only at h
  case skip =>
    have hst : (revState st).text = st.text := rfl
    rw [show (revState st).text = st.text from rfl, hp]
    simp only [Except.ok.injEq] at h
    subst h
    rfl
  case rewritten t2 i2 inst =>
    rw [show (revState st).text = st.text from rfl, hp]
    simp only [Except.ok.injEq] at h
    subst h
    simp [revState]
  case fatal m2 => cases h
  case undef => cases h

/-- The spec-order scanner run from a reversed state mirrors the source
scanner. -/
lemma scanRels_rev (m : Nat) (symtab : List Sym) (rs : List Rel) :
    ∀ (st st2 : ScanState), scanRels m symtab rs st = Except.ok st2 →
      scanRelsSpecOrder m symtab rs (revState st) = Except.ok (revState st2) := by
  induction rs with
  | nil =>
    intro st st2 h
    unfold scanRels at h
    simp only [Except.ok.injEq] at h
    subst h
    rfl
  | cons r rs ih =>
    intro st st2 h
    unfold scanRels at h
    cases hstep : scanStep m symtab st r <;> rw [hstep] at h <;>
      simp only at h
    · cases h
    · case ok st3 =>
      unfold scanRelsSpecOrder
      rw [scanStep_rev m symtab st r st3 hstep]
      exact ih st3 st2 h

/-- Every record emitted by `record_instance` has a zero `probe` pointer and
the instance's call-site offset. -/
lemma recordInstance_ok {o : Obj} {inst : ProbeInstance} {r1 : SdtInstance}
    (h : recordInstance o inst = Except.ok r1) :
    r1 = { probe := 0, offset := inst.offset } := by
  unfold recordInstance at h
  split at h
  · cases h
  · cases hres : resolveInstance o.probeSyms inst.symname o.probeRels <;>
      rw [hres] at h <;> simp only at h
    · cases h
    · split at h
      · simp only [Except.ok.injEq] at h
        exact h.symm
      · cases h

/-- The emitted records are the instance list mapped to records. -/
lemma emitAll_ok {o : Obj} (l : List ProbeInstance) :
    ∀ (recs : List SdtInstance), emitAll o l = Except.ok recs →
      recs = l.map (fun inst => { probe := 0, offset := inst.offset }) := by
  induction l with
  | nil =>
    intro recs h
    unfold emitAll at h
    simp only [Except.ok.injEq] at h
    subst h
    rfl
  | cons inst insts ih =>
    intro recs h
    unfold emitAll at h
    cases hri : recordInstance o inst <;> rw [hri] at h <;> simp only at h
    · cases h
    · case ok r1 =>
      cases hrest : emitAll o insts <;> rw [hrest] at h <;> simp only at h
      · cases h
      · case ok recs2 =>
        simp only [Except.ok.injEq] at h
        subst h
        rw [recordInstance_ok hri, ih recs2 hrest]
        rfl

/-- Inversion of `process_obj` on a non-skipped success: the scanner
succeeded and the emitted records are its instance list mapped to records. -/
lemma processObj_ok_records {o : Obj} {res : ObjResult}
    (hr : processObj o = Except.ok res) (hs : res.skipped = false) :
    ∃ st, scanRels o.e_machine o.symtab o.textRels
        { text := o.text, rels := [], plist := [] } = Except.ok st ∧
      res.instRecords =
        st.plist.map (fun inst => { probe := 0, offset := inst.offset }) := by
  unfold processObj at hr
  split at hr
  · simp only [Except.ok.injEq] at hr
    rw [← hr] at hs
    simp [skipResult] at hs
  · cases hscan : scanRels o.e_machine o.symtab o.textRels
        { text := o.text, rels := [], plist := [] } <;>
      rw [hscan] at hr <;> simp only at hr
    · cases hr
    · case ok st =>
      refine ⟨st, rfl, ?_⟩
      split at hr
      · rename_i hemp
        simp only [Except.ok.injEq] at hr
        rw [← hr]
        rw [List.isEmpty_iff.mp hemp]
        rfl
      · cases hemit : emitAll o st.plist <;> rw [hemit] at hr <;>
          simp only at hr
        · cases hr
        · case ok recs =>
          simp only [Except.ok.injEq] at hr
          rw [← hr]
          exact emitAll_ok st.plist recs hemit

/-- The early-return path of `process_obj` for a non-relocatable input. -/
lemma processObj_skip (o : Obj) (h : o.e_type ≠ ET_REL) :
    processObj o = Except.ok (skipResult o) := by
  unfold processObj
  rw [if_pos h]

/-- Inserting a non-relocatable input anywhere in a run that succeeds leaves
the exit status at 0. -/
lemma exitCode_insert_skip (o : Obj) (h : o.e_type ≠ ET_REL) :
    ∀ (pre post : List Obj), exitCode (pre ++ post) = 0 →
      exitCode (pre ++ o :: post) = 0 := by
  intro pre
  induction pre with
  | nil =>
    intro post hok
    simp only [List.nil_append] at hok ⊢
    unfold exitCode at hok ⊢
    cases hrp : runAll post <;> rw [hrp] at hok
    · exact absurd hok (by simp)
    · unfold runAll
      rw [processObj_skip o h, hrp]
  | cons p ps ih =>
    intro post hok
    simp only [List.cons_append] at hok ⊢
    unfold exitCode at hok ⊢
    unfold runAll at hok ⊢
    cases hp : processObj p
    · simp [hp] at hok
    · cases hrest : runAll (ps ++ post)
      · simp [hp, hrest] at hok
      · have hok2 : exitCode (ps ++ post) = 0 := by
          unfold exitCode
          rw [hrest]
        have hih := ih post hok2
        unfold exitCode at hih
        cases hrest2 : runAll (ps ++ o :: post)
        · simp [hrest2] at hih
        · rfl

/-- C1: the claim says that for a probe instance with stub symbol
`__dtrace_probe_foo` and a probe-set relocation referencing `sdt_foo`, the
resolver finds that relocation as the first equal match and processing
succeeds.  The code instead skips every descriptor name shorter than
`prefixlen` (the 15-character stub pattern), so `sdt_foo` (7 characters) is
never compared, `found` stays false, and `record_instance` aborts fatally.
This theorem evaluates the code at the failing input. -/
theorem c1_short_descriptor_fatal :
    resolveInstance objFoo.probeSyms "__dtrace_probe_foo".toList
        objFoo.probeRels = Except.ok false ∧
    processObj objFoo = Except.error "failed to find SDT probe relocation" := by
  decide

/-- C3: the claim says the record count in `set_sdt_instance_set` equals the
relocation count in `.relaset_sdt_instance_set`, both equal to the number of
probe-stub relocations.  The code emits one record per stub relocation but
never appends any relocation to `.relaset_sdt_instance_set` (the section
parameter of `record_instance` is unused), so the counts differ: at this
input, 1 stub relocation and 1 record but 0 relocations. -/
theorem c3_companion_relocations_missing :
    processObj objLong = Except.ok resLong ∧
    objLong.textRels.length = 1 ∧
    resLong.instRecords.length = 1 ∧
    resLong.instRelas.length = 0 := by
  decide

/-- C5: for every rewritten probe-stub relocation, regardless of the
relocation's original type value, the type field of the rewritten info word
equals `R_X86_64_NONE`: `*info &= ~GELF_R_TYPE(*info)` clears exactly the
type bits that are set, which zeroes the whole 32-bit type field. -/
theorem c5_type_is_none (i : Nat) :
    GELF_R_TYPE (rewriteInfo i) = R_X86_64_NONE :=
  rtype_rewriteInfo i

/-- C7: the header returned by `add_section` carries `sh_name` equal to the
string-table size before the name's bytes (with NUL) were appended, and the
string-table size grows by exactly the name's length plus one. -/
theorem c7_name_offset_and_growth (s : Nat) (name : List Char) (ty fl : Nat) :
    (addSection s name ty fl).1.sh_name = s ∧
    (addSection s name ty fl).2 = s + (name.length + 1) := by
  unfold addSection
  refine ⟨?_, rfl⟩
  simp only []
  omega

/-- C2 counterexample: running the tool on its own output is not a no-op.
`objLongRewritten` is exactly the text and relocations the first run
produced for `objLong`, yet the second run aborts fatally at the opcode
check instead of finding no probe-stub relocations. -/
theorem c2_counterexample :
    processObj objLong = Except.ok resLong ∧
    objLongRewritten.text = resLong.text ∧
    objLongRewritten.textRels = resLong.textRels ∧
    processObj objLongRewritten = Except.error "unexpected opcode" := by
  decide

/-- C2 (amended): running the rewriter a second time on a call site it has
already rewritten aborts fatally rather than skipping it: the neutralized
relocation still references the stub symbol, so the name filter matches
again, and the patched byte at `O - 1` (NOP or RET) fails the CALL/JMP
opcode check. -/
theorem c2_second_run_fatal (symtab : List Sym) (t : List Nat) (O i : Nat)
    (sym : Sym) (opc : Nat)
    (h64 : i < 2 ^ 64)
    (hsym : symlookup symtab (GELF_R_SYM i) = some sym)
    (hname : sym.name.take pfxlen = probePfx)
    (hty : GELF_ST_TYPE sym.st_info = STT_NOTYPE)
    (hbd : GELF_ST_BIND sym.st_info = STB_GLOBAL)
    (hopc : readByte t ((O : Int) - 1) = some opc)
    (hc : opc = AMD64_CALL ∨ opc = AMD64_JMP32)
    (hb0 : readByte t (O : Int) = some 0)
    (hb1 : readByte t ((O : Int) + 1) = some 0)
    (hb2 : readByte t ((O : Int) + 2) = some 0)
    (hb3 : readByte t ((O : Int) + 3) = some 0) :
    processRel EM_X86_64 symtab t O i =
      RelAction.rewritten (rewrittenText t O opc) (rewriteInfo i)
        { symname := sym.name, offset := O } ∧
    processRel EM_X86_64 symtab (rewrittenText t O opc) O (rewriteInfo i) =
      RelAction.fatal "unexpected opcode" :=
  ⟨processRel_rewrites symtab t O i sym opc hsym hname hty hbd hopc hc
      hb0 hb1 hb2 hb3,
   processRel_again_fatal symtab t O i sym opc h64 hsym hname hty hbd
      hopc hb3⟩

/-- C2 witness: the amended theorem applied to the call site of `objLong`. -/
theorem c2_second_run_fatal_witness :
    processRel EM_X86_64 symtabLong objLong.text 3 ((1 <<< 32) + 2) =
      RelAction.rewritten (rewrittenText objLong.text 3 AMD64_CALL)
        (rewriteInfo ((1 <<< 32) + 2))
        { symname := "__dtrace_probe_averylongprobe".toList, offset := 3 } ∧
    processRel EM_X86_64 symtabLong (rewrittenText objLong.text 3 AMD64_CALL)
        3 (rewriteInfo ((1 <<< 32) + 2)) =
      RelAction.fatal "unexpected opcode" :=
  c2_second_run_fatal symtabLong objLong.text 3 ((1 <<< 32) + 2)
    { name := "__dtrace_probe_averylongprobe".toList, st_info := 0x10 }
    AMD64_CALL (by decide) (by decide) (by decide) (by decide) (by decide)
    (by decide) (Or.inl rfl) (by decide) (by decide) (by decide) (by decide)

/-- C4 counterexample: with two call sites, processed in the relocation order
offsets 3 then 9, the emitted records are in the opposite order, so the i-th
record does not correspond to the i-th rewritten relocation. -/
theorem c4_counterexample :
    processObj objTwo = Except.ok resTwo ∧
    scanRelsSpecOrder objTwo.e_machine objTwo.symtab objTwo.textRels
        { text := objTwo.text, rels := [], plist := [] } = Except.ok stATwo ∧
    resTwo.instRecords =
      [{ probe := 0, offset := 9 }, { probe := 0, offset := 3 }] ∧
    resTwo.instRecords ≠
      stATwo.plist.map (fun inst => { probe := 0, offset := inst.offset }) := by
  decide

/-- C4 (amended): the emitted records appear in the reverse of processing
order: the instance list is built by head insertion and drained from the
head, so the i-th record corresponds to the (n+1-i)-th rewritten
relocation. -/
theorem c4_records_reverse_order (o : Obj) (stA : ScanState)
    (res : ObjResult)
    (hr : processObj o = Except.ok res)
    (hs : res.skipped = false)
    (hA : scanRelsSpecOrder o.e_machine o.symtab o.textRels
        { text := o.text, rels := [], plist := [] } = Except.ok stA) :
    res.instRecords =
      (stA.plist.map (fun inst => { probe := 0, offset := inst.offset })).reverse := by
  obtain ⟨st, hscan, hrec⟩ := processObj_ok_records hr hs
  have h2 := scanRels_rev o.e_machine o.symtab o.textRels _ _ hscan
  rw [show revState { text := o.text, rels := [], plist := [] } =
      ({ text := o.text, rels := [], plist := [] } : ScanState) from rfl] at h2
  rw [hA] at h2
  simp only [Except.ok.injEq] at h2
  rw [hrec, h2]
  simp [revState, List.map_reverse]

/-- C4 witness: the amended theorem applied to `objTwo`. -/
theorem c4_records_reverse_order_witness :
    resTwo.instRecords =
      (stATwo.plist.map (fun inst => { probe := 0, offset := inst.offset })).reverse :=
  c4_records_reverse_order objTwo stATwo resTwo (by decide) (by decide)
    (by decide)

/-- C6: for every rewritten call site at relocation offset `O`, the five text
bytes at `O - 1 .. O + 3` become `90 90 90 90 90` when the original opcode
byte at `O - 1` was `0xE8` (CALL), and `C3 90 90 90 90` when it was `0xE9`
(JMP). -/
theorem c6_patched_bytes (symtab : List Sym) (t : List Nat) (O i : Nat)
    (sym : Sym) (opc : Nat)
    (hsym : symlookup symtab (GELF_R_SYM i) = some sym)
    (hname : sym.name.take pfxlen = probePfx)
    (hty : GELF_ST_TYPE sym.st_info = STT_NOTYPE)
    (hbd : GELF_ST_BIND sym.st_info = STB_GLOBAL)
    (hopc : readByte t ((O : Int) - 1) = some opc)
    (hc : opc = AMD64_CALL ∨ opc = AMD64_JMP32)
    (hb0 : readByte t (O : Int) = some 0)
    (hb1 : readByte t ((O : Int) + 1) = some 0)
    (hb2 : readByte t ((O : Int) + 2) = some 0)
    (hb3 : readByte t ((O : Int) + 3) = some 0) :
    processRel EM_X86_64 symtab t O i =
      RelAction.rewritten (rewrittenText t O opc) (rewriteInfo i)
        { symname := sym.name, offset := O } ∧
    (opc = AMD64_CALL →
      readByte (rewrittenText t O opc) ((O : Int) - 1) = some AMD64_NOP ∧
      readByte (rewrittenText t O opc) (O : Int) = some AMD64_NOP ∧
      readByte (rewrittenText t O opc) ((O : Int) + 1) = some AMD64_NOP ∧
      readByte (rewrittenText t O opc) ((O : Int) + 2) = some AMD64_NOP ∧
      readByte (rewrittenText t O opc) ((O : Int) + 3) = some AMD64_NOP) ∧
    (opc = AMD64_JMP32 →
      readByte (rewrittenText t O opc) ((O : Int) - 1) = some AMD64_RETQ ∧
      readByte (rewrittenText t O opc) (O : Int) = some AMD64_NOP ∧
      readByte (rewrittenText t O opc) ((O : Int) + 1) = some AMD64_NOP ∧
      readByte (rewrittenText t O opc) ((O : Int) + 2) = some AMD64_NOP ∧
      readByte (rewrittenText t O opc) ((O : Int) + 3) = some AMD64_NOP) := by
  have hb := readByte_some hopc
  have hb3b := readByte_some hb3
  have hoff : 1 ≤ O := by omega
  have hlen : O + 3 < t.length := by
    have := hb3b.2
    omega
  obtain ⟨hr0, hr1, hr2, hr3, hr4⟩ := rewrittenText_bytes t O opc hoff hlen
  refine ⟨processRel_rewrites symtab t O i sym opc hsym hname hty hbd hopc hc
      hb0 hb1 hb2 hb3, fun hCall => ?_, fun hJmp => ?_⟩
  · rw [if_neg (by rw [hCall]; decide)] at hr0
    exact ⟨hr0, hr1, hr2, hr3, hr4⟩
  · rw [if_pos hJmp] at hr0
    exact ⟨hr0, hr1, hr2, hr3, hr4⟩

/-- C6 witness: the theorem applied to the CALL site of `objLong`. -/
theorem c6_patched_bytes_witness :
    processRel EM_X86_64 symtabLong objLong.text 3 ((1 <<< 32) + 2) =
      RelAction.rewritten (rewrittenText objLong.text 3 AMD64_CALL)
        (rewriteInfo ((1 <<< 32) + 2))
        { symname := "__dtrace_probe_averylongprobe".toList, offset := 3 } ∧
    (AMD64_CALL = AMD64_CALL →
      readByte (rewrittenText objLong.text 3 AMD64_CALL) ((3 : Int) - 1) =
        some AMD64_NOP ∧
      readByte (rewrittenText objLong.text 3 AMD64_CALL) (3 : Int) =
        some AMD64_NOP ∧
      readByte (rewrittenText objLong.text 3 AMD64_CALL) ((3 : Int) + 1) =
        some AMD64_NOP ∧
      readByte (rewrittenText objLong.text 3 AMD64_CALL) ((3 : Int) + 2) =
        some AMD64_NOP ∧
      readByte (rewrittenText objLong.text 3 AMD64_CALL) ((3 : Int) + 3) =
        some AMD64_NOP) ∧
    (AMD64_CALL = AMD64_JMP32 →
      readByte (rewrittenText objLong.text 3 AMD64_CALL) ((3 : Int) - 1) =
        some AMD64_RETQ ∧
      readByte (rewrittenText objLong.text 3 AMD64_CALL) (3 : Int) =
        some AMD64_NOP ∧
      readByte (rewrittenText objLong.text 3 AMD64_CALL) ((3 : Int) + 1) =
        some AMD64_NOP ∧
      readByte (rewrittenText objLong.text 3 AMD64_CALL) ((3 : Int) + 2) =
        some AMD64_NOP ∧
      readByte (rewrittenText objLong.text 3 AMD64_CALL) ((3 : Int) + 3) =
        some AMD64_NOP) :=
  c6_patched_bytes symtabLong objLong.text 3 ((1 <<< 32) + 2)
    { name := "__dtrace_probe_averylongprobe".toList, st_info := 0x10 }
    AMD64_CALL (by decide) (by decide) (by decide) (by decide) (by decide)
    (Or.inl rfl) (by decide) (by decide) (by decide) (by decide)

/-- C8: a non-relocatable input is skipped with a warning and left unchanged
(no text edits, no relocation edits, no new sections), and a run in which the
other inputs succeed still exits with status 0. -/
theorem c8_skip_non_relocatable (o : Obj) (pre post : List Obj)
    (h : o.e_type ≠ ET_REL)
    (hok : exitCode (pre ++ post) = 0) :
    processObj o = Except.ok (skipResult o) ∧
    (skipResult o).skipped = true ∧
    (skipResult o).text = o.text ∧
    (skipResult o).textRels = o.textRels ∧
    (skipResult o).instRecords = [] ∧
    (skipResult o).newSections = [] ∧
    exitCode (pre ++ o :: post) = 0 :=
  ⟨processObj_skip o h, rfl, rfl, rfl, rfl, rfl,
   exitCode_insert_skip o h pre post hok⟩

/-- C8 witness: the theorem applied to the executable input `objExe` amid a
successful run on `objLong`. -/
theorem c8_skip_non_relocatable_witness :
    processObj objExe = Except.ok (skipResult objExe) ∧
    (skipResult objExe).skipped = true ∧
    (skipResult objExe).text = objExe.text ∧
    (skipResult objExe).textRels = objExe.textRels ∧
    (skipResult objExe).instRecords = [] ∧
    (skipResult objExe).newSections = [] ∧
    exitCode ([objLong] ++ objExe :: []) = 0 :=
  c8_skip_non_relocatable objExe [objLong] [] (by decide) (by decide)

/-- C9: writing back a processed relocation changes at most the type field of
its info word: the written entry keeps the original offset, keeps the
original 32-bit symbol-index field (so a rewritten relocation still
references the stub symbol), and stays within 64 bits. -/
theorem c9_frame_of_rewrite (m : Nat) (symtab : List Sym) (st : ScanState)
    (r : Rel) (st2 : ScanState)
    (h64 : r.r_info < 2 ^ 64)
    (h : scanStep m symtab st r = Except.ok st2) :
    ∃ r2 : Rel, st2.rels = st.rels ++ [r2] ∧
      r2.r_offset = r.r_offset ∧
      GELF_R_SYM r2.r_info = GELF_R_SYM r.r_info ∧
      r2.r_info < 2 ^ 64 := by
  unfold scanStep at h
  cases hp : processRel m symtab st.text r.r_offset r.r_info <;>
    rw [hp] at h <;> simp only at h
  case skip =>
    simp only [Except.ok.injEq] at h
    subst h
    exact ⟨r, rfl, rfl, rfl, h64⟩
  case rewritten t2 i2 inst =>
    obtain ⟨hi2, hoffeq, opc, hopcr, ht2⟩ := processRel_rewritten_inv hp
    simp only [Except.ok.injEq] at h
    subst h
    refine ⟨{ r_offset := r.r_offset, r_info := i2 }, rfl, rfl, ?_, ?_⟩
    · rw [hi2]
      exact rsym_rewriteInfo _ h64
    · rw [hi2]
      exact rewriteInfo_lt _
  case fatal m2 => cases h
  case undef => cases h

/-- C9 witness: the theorem applied to the probe-stub relocation of
`objLong`. -/
theorem c9_frame_of_rewrite_witness :
    ∃ r2 : Rel, st2Long.rels =
        ({ text := objLong.text, rels := [], plist := [] } : ScanState).rels
          ++ [r2] ∧
      r2.r_offset = ({ r_offset := 3, r_info := (1 <<< 32) + 2 } : Rel).r_offset ∧
      GELF_R_SYM r2.r_info =
        GELF_R_SYM ({ r_offset := 3, r_info := (1 <<< 32) + 2 } : Rel).r_info ∧
      r2.r_info < 2 ^ 64 :=
  c9_frame_of_rewrite EM_X86_64 symtabLong
    { text := objLong.text, rels := [], plist := [] }
    { r_offset := 3, r_info := (1 <<< 32) + 2 } st2Long (by decide) (by decide)

/-- C10: the rewriter reads the opcode byte at `O - 1` without checking that
the relocation offset `O` is at least 1: at `O = 0` the guarded read is out
of bounds and `process_rel` hits undefined behavior, while for `O ≥ 1`
(within the text buffer) the opcode read succeeds. -/
theorem c10_opcode_read_bounds (symtab : List Sym) (t : List Nat) (i : Nat)
    (sym : Sym)
    (hsym : symlookup symtab (GELF_R_SYM i) = some sym)
    (hname : sym.name.take pfxlen = probePfx)
    (hty : GELF_ST_TYPE sym.st_info = STT_NOTYPE)
    (hbd : GELF_ST_BIND sym.st_info = STB_GLOBAL) :
    readByte t (((0 : Nat) : Int) - 1) = none ∧
    processRel EM_X86_64 symtab t 0 i = RelAction.undef ∧
    (∀ O : Nat, 1 ≤ O → O - 1 < t.length →
      ∃ b, readByte t ((O : Int) - 1) = some b) := by
  have h0n : readByte t (-1) = none := by
    unfold readByte
    norm_num
  have h0 : readByte t (((0 : Nat) : Int) - 1) = none := by
    norm_num [h0n]
  refine ⟨h0, ?_, ?_⟩
  · simp [processRel, hsym, hname, hty, hbd, h0n]
  · intro O hO hlen
    refine ⟨t.get ⟨O - 1, hlen⟩, ?_⟩
    unfold readByte
    rw [if_pos (by omega), show ((O : Int) - 1).toNat = O - 1 by omega]
    exact List.getElem?_eq_getElem hlen

/-- C10 witness: the theorem applied to `objLong`'s symbol table and text. -/
theorem c10_opcode_read_bounds_witness :
    readByte objLong.text (((0 : Nat) : Int) - 1) = none ∧
    processRel EM_X86_64 symtabLong objLong.text 0 ((1 <<< 32) + 2) =
      RelAction.undef ∧
    (∀ O : Nat, 1 ≤ O → O - 1 < objLong.text.length →
      ∃ b, readByte objLong.text ((O : Int) - 1) = some b) :=
  c10_opcode_read_bounds symtabLong objLong.text ((1 <<< 32) + 2)
    { name := "__dtrace_probe_averylongprobe".toList, st_info := 0x10 }
    (by decide) (by decide) (by decide) (by decide)

end Sdtconvert
